import Mathlib

/-!
Verification of the MIDI playback engine of the `midiplayer` repository.

The development shallowly embeds the engine code (MainComponent audio-block
driver, MidiSchedulerAudioSource, SynthAudioSource channel router) as pure
Lean functions over explicit state records.  Machine doubles are modelled by
exact rationals; `static_cast<int>` on a double is modelled by truncation
toward zero.  Each embedded definition carries a comment naming the source
function it was translated from.
-/

/-- Truncation toward zero, the semantics of C++ `static_cast<int>` applied
to a floating-point value (here modelled on rationals). -/
def truncToInt (x : ℚ) : ℤ := if 0 ≤ x then ⌊x⌋ else ⌈x⌉

/-- Model of `juce::jmin` on integers. -/
def jmin (a b : ℤ) : ℤ := min a b

/-- Model of `juce::jlimit (lower, upper, value)`: clamp `v` into
`[lower, upper]`. -/
def jlimit (lower upper v : ℤ) : ℤ :=
  if v < lower then lower else if upper < v then upper else v

/-- Rounding to the nearest integer (half away from zero for positive
arguments).  This is a specification-side definition only: the spec claims
sample offsets are rounded, and it is compared against the truncation the
code actually performs. -/
def roundHalfUp (x : ℚ) : ℤ := ⌊x + 1/2⌋

/-- MIDI message payloads, as far as the scheduler and the channel router
inspect them.  Channels are the 1-based values returned by
`juce::MidiMessage::getChannel` (0 for messages without a channel). -/
inductive MidiMsgKind where
  | noteOn (channel note velocity : ℤ)
  | noteOff (channel note velocity : ℤ)
  | programChange (channel program : ℤ)
  | otherMsg (channel : ℤ)
deriving DecidableEq, Repr

instance : Inhabited MidiMsgKind := ⟨MidiMsgKind.otherMsg 0⟩

/-- One event of a `juce::MidiMessageSequence`: a timestamp in ticks, the
message, and (after `updateMatchedPairs`) for a note-on the timestamp of its
matched note-off (`noteOffObject`), if any. -/
structure MidiEvt where
  tick : ℚ
  msg : MidiMsgKind
  noteOffTick : Option ℚ
deriving DecidableEq, Repr

instance : Inhabited MidiEvt := ⟨⟨0, default, none⟩⟩

/-- Embeds the binary search shared verbatim by
`MainComponent::findEventIndexForBeat`,
`MidiSchedulerAudioSource::findEventIndexForBeat` and
`SynthAudioSource::findEventIndexForBeat`: `low = 0; high = numEvents;
while (low < high) { mid = (low+high)/2; if (eventBeat(mid) < beat)
low = mid+1 else high = mid }; return low`, abstracted over the function
giving the beat of the event at an index. -/
def findEventIndexAux (beatOf : ℕ → ℚ) (beat : ℚ) (low high : ℕ) : ℕ :=
  if low < high then
    if beatOf ((low + high) / 2) < beat then
      findEventIndexAux beatOf beat ((low + high) / 2 + 1) high
    else
      findEventIndexAux beatOf beat low ((low + high) / 2)
  else
    low
termination_by high - low
decreasing_by
  · omega
  · omega

/-- Specification-side linear scan: starting from index `i`, the first index
`j < n` with `beatOf j` at or after `beat`, and `n` if there is none. -/
def linearScanFrom (beatOf : ℕ → ℚ) (beat : ℚ) (n i : ℕ) : ℕ :=
  if i < n then
    if beatOf i < beat then linearScanFrom beatOf beat n (i + 1) else i
  else
    n
termination_by n - i

namespace MainComponent

/-- Embeds `MainComponent::convertTicksToBeats` (fixed 480 PPQ). -/
def convertTicksToBeats (ticks : ℚ) : ℚ := ticks / 480

/-- Embeds `MainComponent::convertBeatsToMilliseconds`:
`(beats * 60.0 / tempo) * 1000.0`. -/
def convertBeatsToMilliseconds (tempo beats : ℚ) : ℚ := beats * 60 / tempo * 1000

/-- Beat of the event at index `i` of the sequence, as the code reads it
through `getEventPointer(i)->message.getTimeStamp()`. -/
def eventBeatAt (seq : List MidiEvt) (i : ℕ) : ℚ :=
  convertTicksToBeats ((seq.getD i default).tick)

/-- Embeds `MainComponent::findEventIndexForBeat`. -/
def findEventIndexForBeat (seq : List MidiEvt) (beat : ℚ) : ℕ :=
  findEventIndexAux (eventBeatAt seq) beat 0 seq.length

/-- Specification-side linear scan over the same sequence, for the
refinement claim about the binary search. -/
def linearScanIndexForBeat (seq : List MidiEvt) (beat : ℚ) : ℕ :=
  linearScanFrom (eventBeatAt seq) beat seq.length 0

/-- Embeds the constant `epsilon = 0.05` of
`MainComponent::reTriggerSustainedNotesAt`. -/
def epsilon : ℚ := 1/20

/-- Embeds `MainComponent::reTriggerSustainedNotesAt`: the list of `noteOn`
calls (channel, note number, velocity / 127) issued to the synthesiser, one
for every matched note-on whose beat is at most `boundaryBeat + epsilon` and
whose matched note-off beat is strictly after `boundaryBeat`. -/
def reTriggerSustainedNotesAt (seq : List MidiEvt) (boundaryBeat : ℚ) :
    List (ℤ × ℤ × ℚ) :=
  seq.filterMap fun evt =>
    match evt.msg, evt.noteOffTick with
    | MidiMsgKind.noteOn channel note velocity, some offTick =>
        if convertTicksToBeats evt.tick ≤ boundaryBeat + epsilon ∧
            boundaryBeat < convertTicksToBeats offTick then
          some (channel, note, (velocity : ℚ) / 127)
        else none
    | _, _ => none

/-- Embeds the per-event sample-offset computation of
`MainComponent::processSegment`: `eventTimeMs = convertBeatsToMilliseconds
(eventBeat - segmentStartBeat)` followed by
`(int)((eventTimeMs * sampleRate) / 1000.0)`. -/
def sampleOffsetAt (seq : List MidiEvt) (tempo sampleRate segmentStartBeat : ℚ)
    (i : ℕ) : ℤ :=
  truncToInt (convertBeatsToMilliseconds tempo (eventBeatAt seq i - segmentStartBeat) *
    sampleRate / 1000)

/-- Embeds the event-collection loop body of `MainComponent::processSegment`
(continued): the loop from index `i`. -/
def processSegmentLoop (seq : List MidiEvt) (tempo sampleRate : ℚ)
    (bufferStartSample segmentStartSample segmentNumSamples : ℤ)
    (segmentStartBeat segmentEndBeat : ℚ) (i : ℕ) : List (MidiMsgKind × ℤ) :=
  if i < seq.length then
    if segmentEndBeat ≤ eventBeatAt seq i then []
    else
      (if segmentStartBeat ≤ eventBeatAt seq i then
        if 0 ≤ sampleOffsetAt seq tempo sampleRate segmentStartBeat i ∧
            sampleOffsetAt seq tempo sampleRate segmentStartBeat i < segmentNumSamples then
          [((seq.getD i default).msg,
            bufferStartSample + segmentStartSample +
              sampleOffsetAt seq tempo sampleRate segmentStartBeat i)]
        else []
      else []) ++
      processSegmentLoop seq tempo sampleRate bufferStartSample segmentStartSample
        segmentNumSamples segmentStartBeat segmentEndBeat (i + 1)
  else []
termination_by seq.length - i

/-- Embeds `MainComponent::processSegment`: binary-search the first event at
or after the segment start, collect events up to the segment end into the
per-block buffer, which is then handed to the renderer in one call. -/
def processSegment (seq : List MidiEvt) (tempo sampleRate : ℚ)
    (bufferStartSample segmentStartSample segmentNumSamples : ℤ)
    (segmentStartBeat segmentEndBeat : ℚ) : List (MidiMsgKind × ℤ) :=
  processSegmentLoop seq tempo sampleRate bufferStartSample segmentStartSample
    segmentNumSamples segmentStartBeat segmentEndBeat
    (findEventIndexForBeat seq segmentStartBeat)

/-- Engine-relevant state of `MainComponent`. -/
structure MCState where
  midiSequence : List MidiEvt
  isPlaying : Bool
  playbackPosition : ℚ
  tempo : ℚ
  loopStartBeat : ℚ
  loopEndBeat : ℚ
  loopCount : ℤ
  currentLoopIteration : ℤ
  isLooping : Bool
deriving DecidableEq, Repr

/-- Observable actions of one audio-block callback, in program order:
segment renders (with the buffer passed to the renderer), all-notes-off
calls, re-trigger scans (with the notes they turn on), and the asynchronous
message posted to the control thread when playback finishes. -/
inductive Action where
  | segment (startSample numSamples : ℤ) (startBeat endBeat : ℚ)
      (buffer : List (MidiMsgKind × ℤ))
  | allNotesOff
  | retrigger (boundaryBeat : ℚ) (notes : List (ℤ × ℤ × ℚ))
  | asyncUpdate
deriving DecidableEq, Repr

/-- Embeds `secondsPerBeat = 60.0 / tempo`. -/
def secondsPerBeat (tempo : ℚ) : ℚ := 60 / tempo

/-- Embeds `blockBeats = (numSamples / sampleRate) / secondsPerBeat`. -/
def blockBeats (tempo sampleRate : ℚ) (numSamples : ℤ) : ℚ :=
  ((numSamples : ℚ) / sampleRate) / secondsPerBeat tempo

/-- Embeds the `fileEndBeat` computation of `MainComponent::getNextAudioBlock`:
one beat after the last event of the sequence (`lastEventBeat` stays 0 for an
empty sequence). -/
def fileEndBeat (seq : List MidiEvt) : ℚ :=
  (if 0 < seq.length then convertTicksToBeats ((seq.getD (seq.length - 1) default).tick)
   else 0) + 1

/-- Embeds `samplesToEnd = jmin (numSamples, (int)(beatsToEnd *
secondsPerBeat * sampleRate))` of the end-of-file branch. -/
def samplesToEndOfFile (s : MCState) (sampleRate : ℚ) (numSamples : ℤ) : ℤ :=
  jmin numSamples (truncToInt ((fileEndBeat s.midiSequence - s.playbackPosition) *
    secondsPerBeat s.tempo * sampleRate))

/-- Embeds `samplesToLoopEnd = jmin (numSamples, (int)(beatsToLoopEnd *
secondsPerBeat * sampleRate))` of the loop-crossing branch. -/
def samplesToLoopEnd (s : MCState) (sampleRate : ℚ) (numSamples : ℤ) : ℤ :=
  jmin numSamples (truncToInt ((s.loopEndBeat - s.playbackPosition) *
    secondsPerBeat s.tempo * sampleRate))

/-- Embeds `newSegmentEndBeat = loopStartBeat + (remainingSamples /
sampleRate) / secondsPerBeat`: the beat reached by the post-wrap segment. -/
def postWrapEndBeat (s : MCState) (sampleRate : ℚ) (numSamples : ℤ) : ℚ :=
  s.loopStartBeat +
    (((numSamples - samplesToLoopEnd s sampleRate numSamples : ℤ) : ℚ) / sampleRate) /
      secondsPerBeat s.tempo

/-- Embeds `loopEndBeat + extraBeats`: the beat reached by the post-exit
segment on the final loop iteration. -/
def loopExitEndBeat (s : MCState) (sampleRate : ℚ) (numSamples : ℤ) : ℚ :=
  s.loopEndBeat +
    (((numSamples - samplesToLoopEnd s sampleRate numSamples : ℤ) : ℚ) / sampleRate) /
      secondsPerBeat s.tempo

/-- Embeds `MainComponent::getNextAudioBlock`.  The audio device is abstracted
by its sample rate and the block by `bufferStartSample`/`numSamples`; the
returned list gives the externally observable calls in program order. -/
def getNextAudioBlock (s : MCState) (sampleRate : ℚ)
    (bufferStartSample numSamples : ℤ) : MCState × List Action :=
  let s0 := if s.isLooping = true ∧ s.loopEndBeat < s.playbackPosition then
      { s with playbackPosition := s.loopStartBeat } else s
  if s0.isPlaying = false then (s0, [])
  else
    let bb := blockBeats s0.tempo sampleRate numSamples
    let currentBeat := s0.playbackPosition
    let fEnd := fileEndBeat s0.midiSequence
    if s0.isLooping = false ∧ fEnd ≤ currentBeat + bb then
      ({ s0 with playbackPosition := fEnd, isPlaying := false },
       [Action.segment 0 (samplesToEndOfFile s0 sampleRate numSamples) currentBeat fEnd
          (processSegment s0.midiSequence s0.tempo sampleRate bufferStartSample 0
            (samplesToEndOfFile s0 sampleRate numSamples) currentBeat fEnd),
        Action.allNotesOff, Action.asyncUpdate])
    else if s0.isLooping = true ∧ s0.loopEndBeat ≤ currentBeat + bb then
      let seg1 := Action.segment 0 (samplesToLoopEnd s0 sampleRate numSamples)
        currentBeat s0.loopEndBeat
        (processSegment s0.midiSequence s0.tempo sampleRate bufferStartSample 0
          (samplesToLoopEnd s0 sampleRate numSamples) currentBeat s0.loopEndBeat)
      let remainingSamples := numSamples - samplesToLoopEnd s0 sampleRate numSamples
      if s0.currentLoopIteration < s0.loopCount - 1 then
        ({ s0 with playbackPosition := postWrapEndBeat s0 sampleRate numSamples,
                   currentLoopIteration := s0.currentLoopIteration + 1 },
         [seg1, Action.allNotesOff,
          Action.retrigger s0.loopStartBeat
            (reTriggerSustainedNotesAt s0.midiSequence s0.loopStartBeat),
          Action.segment (samplesToLoopEnd s0 sampleRate numSamples) remainingSamples
            s0.loopStartBeat (postWrapEndBeat s0 sampleRate numSamples)
            (processSegment s0.midiSequence s0.tempo sampleRate bufferStartSample
              (samplesToLoopEnd s0 sampleRate numSamples) remainingSamples
              s0.loopStartBeat (postWrapEndBeat s0 sampleRate numSamples))])
      else
        ({ s0 with playbackPosition := loopExitEndBeat s0 sampleRate numSamples,
                   isLooping := false, currentLoopIteration := 0 },
         [seg1,
          Action.retrigger s0.loopEndBeat
            (reTriggerSustainedNotesAt s0.midiSequence s0.loopEndBeat),
          Action.segment (samplesToLoopEnd s0 sampleRate numSamples) remainingSamples
            s0.loopEndBeat (loopExitEndBeat s0 sampleRate numSamples)
            (processSegment s0.midiSequence s0.tempo sampleRate bufferStartSample
              (samplesToLoopEnd s0 sampleRate numSamples) remainingSamples
              s0.loopEndBeat (loopExitEndBeat s0 sampleRate numSamples))])
    else
      ({ s0 with playbackPosition := currentBeat + bb },
       [Action.segment 0 numSamples currentBeat (currentBeat + bb)
          (processSegment s0.midiSequence s0.tempo sampleRate bufferStartSample 0
            numSamples currentBeat (currentBeat + bb))])

/-- Embeds `MainComponent::playMidiFile`: on a nonempty sequence it stops
sounding notes, rewinds to beat 0, resets the loop iteration counter,
re-arms looping when a valid loop region is configured, and re-triggers the
notes sustained across beat 0. -/
def playMidiFile (s : MCState) : MCState × List Action :=
  if 0 < s.midiSequence.length then
    ({ s with isPlaying := true, playbackPosition := 0, currentLoopIteration := 0,
              isLooping := if 0 < s.loopCount ∧ s.loopStartBeat < s.loopEndBeat then true
                           else s.isLooping },
     [Action.allNotesOff,
      Action.retrigger 0 (reTriggerSustainedNotesAt s.midiSequence 0)])
  else (s, [])

/-- Specification-side sample offset of the claim: round, rather than
truncate, `(eventBeat - beatStart) * secondsPerBeat * sampleRate`. -/
def claimedSampleOffset (tempo sampleRate beatStart eventBeat : ℚ) : ℤ :=
  roundHalfUp ((eventBeat - beatStart) * secondsPerBeat tempo * sampleRate)

end MainComponent

namespace MidiSchedulerAudioSource

/-- Embeds the `TempoEvent` struct of `MidiSchedulerAudioSource`: a tick
timestamp and a tempo in microseconds per quarter note; `operator<` compares
timestamps. -/
structure TempoEvent where
  timestamp : ℚ
  tempo : ℚ
deriving DecidableEq, Repr

instance : Inhabited TempoEvent := ⟨⟨0, 0⟩⟩

/-- Embeds the contract of the `std::upper_bound` call in
`MidiSchedulerAudioSource::getCurrentTempo` on the sorted tempo table: the
index of the first entry whose timestamp is strictly greater than the query
timestamp (the list length when there is none). -/
def upperBoundIdx (t : ℚ) : List TempoEvent → ℕ
  | [] => 0
  | e :: rest => if t < e.timestamp then 0 else upperBoundIdx t rest + 1

/-- Embeds `MidiSchedulerAudioSource::getCurrentTempo`: `upper_bound` for
the query timestamp, step back one entry, convert microseconds per quarter
note to BPM; 120 BPM when the query precedes the first entry. -/
def getCurrentTempo (tempoEvents : List TempoEvent) (timestamp : ℚ) : ℚ :=
  if upperBoundIdx timestamp tempoEvents = 0 then 120
  else 60000000 / (tempoEvents.getD (upperBoundIdx timestamp tempoEvents - 1) default).tempo

/-- Specification-side tempo lookup, written from the claim: the BPM of the
last tempo event whose tick is at or before the query, and the default
120 BPM (500000 microseconds per quarter note) when the query precedes every
entry. -/
def tempoAtTickSpec (tempoEvents : List TempoEvent) (t : ℚ) : ℚ :=
  match (tempoEvents.filter fun e => e.timestamp ≤ t).getLast? with
  | some e => 60000000 / e.tempo
  | none => 120

/-- Embeds `MidiSchedulerAudioSource::ticksToBeats` (`ticks / ppq`). -/
def ticksToBeats (ppq : ℤ) (ticks : ℚ) : ℚ := ticks / (ppq : ℚ)

/-- Beat of the event at index `i`, as the scheduler reads it. -/
def eventBeatAt (ppq : ℤ) (seq : List MidiEvt) (i : ℕ) : ℚ :=
  ticksToBeats ppq ((seq.getD i default).tick)

/-- Embeds `MidiSchedulerAudioSource::findEventIndexForBeat`. -/
def findEventIndexForBeat (ppq : ℤ) (seq : List MidiEvt) (beat : ℚ) : ℕ :=
  findEventIndexAux (eventBeatAt ppq seq) beat 0 seq.length

/-- Embeds the buffer-filling loop of
`MidiSchedulerAudioSource::getNextAudioBlock`: iterate from
`startEventIndex` while `i < endEventIndex && i < numEvents`, computing
`sampleOffset = (int)((eventBeat - currentBeat) * secondsPerBeat *
sampleRate)` and keeping events with `0 <= sampleOffset < limit`. -/
def collectEvents (ppq : ℤ) (seq : List MidiEvt) (currentBeat spb sampleRate : ℚ)
    (bufferStartSample limit : ℤ) (endIdx i : ℕ) : List (MidiMsgKind × ℤ) :=
  if i < endIdx ∧ i < seq.length then
    let off := truncToInt ((eventBeatAt ppq seq i - currentBeat) * spb * sampleRate)
    (if 0 ≤ off ∧ off < limit then
      [((seq.getD i default).msg, bufferStartSample + off)] else []) ++
    collectEvents ppq seq currentBeat spb sampleRate bufferStartSample limit endIdx (i + 1)
  else []
termination_by endIdx - i

/-- Engine-relevant state of `MidiSchedulerAudioSource`. -/
structure SchedState where
  midiSequence : List MidiEvt
  tempoEvents : List TempoEvent
  playbackPosition : ℚ
  tempo : ℚ
  currentSampleRate : ℚ
  isPlaying : Bool
  ppq : ℤ
  isLooping : Bool
  loopStartBeat : ℚ
  loopEndBeat : ℚ
  loopCount : ℤ
  currentLoopIteration : ℤ
deriving DecidableEq, Repr

/-- Result of one scheduler audio block: updated state, the MIDI buffer
contents handed to the synthesiser, the sample count passed to
`renderNextBlock` (`none` when the callback returned before rendering), and
whether the asynchronous `onPlaybackStopped` notification was posted. -/
structure SchedBlockResult where
  state : SchedState
  buffer : List (MidiMsgKind × ℤ)
  renderedSamples : Option ℤ
  notifiedStopped : Bool
deriving DecidableEq, Repr

/-- Embeds `MidiSchedulerAudioSource::getNextAudioBlock` (the synthesiser
pointer is assumed non-null and the `onPlaybackStopped` callback wired;
posting it through `MessageManager::callAsync` is recorded in
`notifiedStopped`). -/
def getNextAudioBlock (s : SchedState) (bufferStartSample numSamples : ℤ) :
    SchedBlockResult :=
  if s.isPlaying = false then ⟨s, [], none, false⟩
  else
    let currentTempo := getCurrentTempo s.tempoEvents (s.playbackPosition * (s.ppq : ℚ))
    let s1 := { s with tempo := currentTempo }
    let spb := 60 / currentTempo
    let bpb := ((numSamples : ℚ) / s.currentSampleRate) / spb
    let s2 := if s1.isLooping = true ∧ s1.loopEndBeat < s1.playbackPosition then
        (if s1.currentLoopIteration < s1.loopCount - 1 then
          { s1 with currentLoopIteration := s1.currentLoopIteration + 1,
                    playbackPosition := s1.loopStartBeat }
        else
          { s1 with isLooping := false, currentLoopIteration := 0 })
      else s1
    let currentBeat := s2.playbackPosition
    let fileEndBeat := if 0 < s2.midiSequence.length then
        ticksToBeats s2.ppq
          ((s2.midiSequence.getD (s2.midiSequence.length - 1) default).tick) + 1
      else 0
    if s2.isLooping = false ∧ fileEndBeat ≤ currentBeat + bpb then
      let samplesToEnd := jmin numSamples
        (truncToInt ((fileEndBeat - currentBeat) * s.currentSampleRate / (60 / currentTempo)))
      ⟨{ s2 with playbackPosition := fileEndBeat },
       collectEvents s2.ppq s2.midiSequence currentBeat spb s.currentSampleRate
         bufferStartSample samplesToEnd
         (findEventIndexForBeat s2.ppq s2.midiSequence fileEndBeat)
         (findEventIndexForBeat s2.ppq s2.midiSequence currentBeat),
       some samplesToEnd, true⟩
    else
      ⟨{ s2 with playbackPosition := currentBeat + bpb },
       collectEvents s2.ppq s2.midiSequence currentBeat spb s.currentSampleRate
         bufferStartSample numSamples
         (findEventIndexForBeat s2.ppq s2.midiSequence (currentBeat + bpb))
         (findEventIndexForBeat s2.ppq s2.midiSequence currentBeat),
       some numSamples, false⟩

/-- Embeds `MidiSchedulerAudioSource::setTempo`: store the new BPM and
replace the whole tempo table by a single entry at tick 0 holding
`60000000 / newTempo` microseconds per quarter note. -/
def setTempo (s : SchedState) (newTempo : ℚ) : SchedState :=
  { s with tempo := newTempo,
           tempoEvents := [⟨0, 60000000 / newTempo⟩] }

/-- Embeds `MidiSchedulerAudioSource::setLoopRegion`. -/
def setLoopRegion (s : SchedState) (startBeat endBeat : ℚ) (loops : ℤ) : SchedState :=
  { s with loopStartBeat := startBeat, loopEndBeat := endBeat, loopCount := loops,
           currentLoopIteration := 0,
           isLooping := decide (0 < loops ∧ startBeat < endBeat),
           playbackPosition := startBeat }

/-- Concrete scheduler state exercising the end-of-file path: last event at
tick 4800 (beat 10 at 480 PPQ, so the sequence end is beat 11), no loop,
position 10.5 beats, default tempo table, sample rate 10. -/
def schedEndState : SchedState :=
  { midiSequence := [⟨0, MidiMsgKind.noteOn 1 60 100, some 4800⟩,
                     ⟨4800, MidiMsgKind.noteOff 1 60 0, none⟩],
    tempoEvents := [⟨0, 500000⟩],
    playbackPosition := 21/2,
    tempo := 120,
    currentSampleRate := 10,
    isPlaying := true,
    ppq := 480,
    isLooping := false,
    loopStartBeat := 0,
    loopEndBeat := 0,
    loopCount := 0,
    currentLoopIteration := 0 }

/-- Concrete sorted tempo table for evaluating the tempo lookup. -/
def tempoTable : List TempoEvent := [⟨0, 500000⟩, ⟨960, 400000⟩]

end MidiSchedulerAudioSource

namespace SynthAudioSource

/-- Channel-router state of `SynthAudioSource`: per-channel subsound index
(`channelInfos[i].subsoundIndex`), per-channel active flags, and the global
transposition amount. -/
structure SynthState where
  subsounds : List ℤ
  activeChannels : List Bool
  transpositionAmount : ℤ
deriving DecidableEq, Repr

/-- Embeds `juce::MidiMessage::getChannel` on the modelled messages. -/
def getChannel : MidiMsgKind → ℤ
  | MidiMsgKind.noteOn c _ _ => c
  | MidiMsgKind.noteOff c _ _ => c
  | MidiMsgKind.programChange c _ => c
  | MidiMsgKind.otherMsg c => c

/-- Embeds `SynthAudioSource::setupChannel`: store the subsound index for a
channel in range (the call also silences that channel, which adds no buffer
event). -/
def setupChannel (st : SynthState) (channel subsoundIndex : ℤ) : SynthState :=
  if 0 ≤ channel ∧ channel < 16 then
    { st with subsounds := st.subsounds.set channel.toNat subsoundIndex }
  else st

/-- Embeds one iteration of the message-routing loop of
`SynthAudioSource::renderNextBlock`: the updated state and the entry
appended to `channelBuffers[channel]` (channel index, possibly rewritten
message, sample position), or `none` for a message whose 0-based channel
index falls outside `[0, 16)`.  Program changes update the subsound except
on channel index 9; note messages are transposed with clamping except on
channel index 9; every in-range message is appended to its channel buffer
and marks the channel active. -/
def routeMessage (st : SynthState) (m : MidiMsgKind) (samplePos : ℤ) :
    SynthState × Option (ℕ × MidiMsgKind × ℤ) :=
  let channel := getChannel m - 1
  if 0 ≤ channel ∧ channel < 16 then
    let idx := channel.toNat
    let markActive := fun (st1 : SynthState) =>
      { st1 with activeChannels := st1.activeChannels.set idx true }
    match m with
    | MidiMsgKind.programChange c prog =>
        let st1 := if idx = 9 then st else setupChannel st channel prog
        (markActive st1, some (idx, MidiMsgKind.programChange c prog, samplePos))
    | MidiMsgKind.noteOn c note vel =>
        let m1 := if idx = 9 then MidiMsgKind.noteOn c note vel
          else MidiMsgKind.noteOn c (jlimit 0 127 (note + st.transpositionAmount)) vel
        (markActive st, some (idx, m1, samplePos))
    | MidiMsgKind.noteOff c note vel =>
        let m1 := if idx = 9 then MidiMsgKind.noteOff c note vel
          else MidiMsgKind.noteOff c (jlimit 0 127 (note + st.transpositionAmount)) vel
        (markActive st, some (idx, m1, samplePos))
    | MidiMsgKind.otherMsg c =>
        (markActive st, some (idx, MidiMsgKind.otherMsg c, samplePos))
  else (st, none)

/-- Embeds the routing loop of `SynthAudioSource::renderNextBlock` over a
whole block buffer: the final router state plus all appended channel-buffer
entries in order. -/
def renderNextBlock (st : SynthState) (midiBuffer : List (MidiMsgKind × ℤ)) :
    SynthState × List (ℕ × MidiMsgKind × ℤ) :=
  midiBuffer.foldl
    (fun acc em =>
      let r := routeMessage acc.1 em.1 em.2
      (r.1, acc.2 ++ r.2.toList))
    (st, [])

/-- Concrete router state: the constructor subsound assignment (channel
index 9 bound to the drum kit 228, all others to program 0) with a global
transposition of +12 semitones. -/
def synthExampleState : SynthState :=
  { subsounds := (List.replicate 16 (0 : ℤ)).set 9 228,
    activeChannels := List.replicate 16 false,
    transpositionAmount := 12 }

end SynthAudioSource

namespace MainComponent

/-- Concrete state exercising the loop-crossing paths: a matched note from
beat 0 (tick 0) to beat 8 (tick 3840), loop region `[2, 6)` with 3
iterations, position 5.5 beats, tempo 120. -/
def loopWrapState : MCState :=
  { midiSequence := [⟨0, MidiMsgKind.noteOn 1 60 100, some 3840⟩,
                     ⟨3840, MidiMsgKind.noteOff 1 60 0, none⟩],
    isPlaying := true,
    playbackPosition := 11/2,
    tempo := 120,
    loopStartBeat := 2,
    loopEndBeat := 6,
    loopCount := 3,
    currentLoopIteration := 0,
    isLooping := true }

/-- The same state on its final loop iteration. -/
def loopExitState : MCState := { loopWrapState with currentLoopIteration := 2 }

/-- Concrete sorted three-event sequence for evaluating the binary search. -/
def sortedSeq : List MidiEvt :=
  [⟨0, MidiMsgKind.noteOn 1 60 100, some 480⟩,
   ⟨480, MidiMsgKind.noteOff 1 60 0, none⟩,
   ⟨960, MidiMsgKind.noteOn 1 64 90, none⟩]

/-- Concrete segment input for the sample-offset computation: events at
beats 0.3 and 0.9 (ticks 144 and 432). -/
def offsetSeq : List MidiEvt :=
  [⟨144, MidiMsgKind.noteOn 1 60 100, none⟩,
   ⟨432, MidiMsgKind.noteOn 1 62 100, none⟩]

end MainComponent
theorem findEventIndexAux_bounds (beatOf : ℕ → ℚ) (beat : ℚ) (low high : ℕ)
    (h : low ≤ high) :
    low ≤ findEventIndexAux beatOf beat low high ∧
      findEventIndexAux beatOf beat low high ≤ high := by
  rw [findEventIndexAux]
  split
  · split
    · have ih := findEventIndexAux_bounds beatOf beat ((low + high) / 2 + 1) high (by omega)
      omega
    · have ih := findEventIndexAux_bounds beatOf beat low ((low + high) / 2) (by omega)
      omega
  · omega
termination_by high - low
decreasing_by
  · omega
  · omega

theorem findEventIndexAux_inv (beatOf : ℕ → ℚ) (beat : ℚ) (n low high : ℕ)
    (hhn : high ≤ n) (hlh : low ≤ high)
    (hmono : ∀ i j, i ≤ j → j < n → beatOf i ≤ beatOf j)
    (hlow : ∀ i, i < low → beatOf i < beat)
    (hhigh : ∀ i, high ≤ i → i < n → beat ≤ beatOf i) :
    (∀ i, i < findEventIndexAux beatOf beat low high → beatOf i < beat) ∧
      (∀ i, findEventIndexAux beatOf beat low high ≤ i → i < n → beat ≤ beatOf i) := by
  rw [findEventIndexAux]
  split
  case isTrue hcase =>
    split
    case isTrue hmid =>
      refine findEventIndexAux_inv beatOf beat n ((low + high) / 2 + 1) high hhn (by omega)
        hmono ?_ hhigh
      intro i hi
      rcases Nat.lt_or_ge i low with h1 | h1
      · exact hlow i h1
      · exact lt_of_le_of_lt (hmono i ((low + high) / 2) (by omega) (by omega)) hmid
    case isFalse hmid =>
      refine findEventIndexAux_inv beatOf beat n low ((low + high) / 2) (by omega) (by omega)
        hmono hlow ?_
      intro i hi hin
      exact le_trans (not_lt.mp hmid) (hmono ((low + high) / 2) i hi hin)
  case isFalse hcase =>
    refine ⟨hlow, ?_⟩
    intro i hi hin
    exact hhigh i (by omega) hin
termination_by high - low
decreasing_by
  · omega
  · omega

theorem linearScanFrom_inv (beatOf : ℕ → ℚ) (beat : ℚ) (n i : ℕ)
    (hin : i ≤ n) (hlow : ∀ j, j < i → beatOf j < beat) :
    (∀ j, j < linearScanFrom beatOf beat n i → beatOf j < beat) ∧
      i ≤ linearScanFrom beatOf beat n i ∧
      linearScanFrom beatOf beat n i ≤ n ∧
      (linearScanFrom beatOf beat n i < n →
        beat ≤ beatOf (linearScanFrom beatOf beat n i)) := by
  rw [linearScanFrom]
  split
  case isTrue hcase =>
    split
    case isTrue hbeat =>
      have ih := linearScanFrom_inv beatOf beat n (i + 1) (by omega) ?_
      · exact ⟨ih.1, by omega, ih.2.2⟩
      · intro j hj
        rcases Nat.lt_or_ge j i with h1 | h1
        · exact hlow j h1
        · have : j = i := by omega
          simpa [this] using hbeat
    case isFalse hbeat =>
      exact ⟨hlow, le_rfl, by omega, fun _ => not_lt.mp hbeat⟩
  case isFalse hcase =>
    exact ⟨fun j hj => hlow j (by omega), by omega, le_rfl, by omega⟩
termination_by n - i

/-- Equivalence of the shared binary search with the linear scan, for any
index-monotone beat function (the image of a sequence sorted by tick). -/
theorem findEventIndexAux_eq_linearScan (beatOf : ℕ → ℚ) (beat : ℚ) (n : ℕ)
    (hmono : ∀ i j, i ≤ j → j < n → beatOf i ≤ beatOf j) :
    findEventIndexAux beatOf beat 0 n = linearScanFrom beatOf beat n 0 := by
  obtain ⟨hf1, hf2⟩ := findEventIndexAux_inv beatOf beat n 0 n le_rfl (Nat.zero_le n)
    hmono (by omega) (by omega)
  obtain ⟨hfl, hfh⟩ := findEventIndexAux_bounds beatOf beat 0 n (Nat.zero_le n)
  obtain ⟨hl1, _, hl3, hl4⟩ := linearScanFrom_inv beatOf beat n 0 (Nat.zero_le n) (by omega)
  by_contra hne
  rcases lt_or_gt_of_ne hne with hlt | hgt
  · have h1 : beatOf (findEventIndexAux beatOf beat 0 n) < beat :=
      hl1 _ hlt
    have h2 : beat ≤ beatOf (findEventIndexAux beatOf beat 0 n) :=
      hf2 _ le_rfl (lt_of_lt_of_le hlt hl3)
    exact absurd h1 (not_lt.mpr h2)
  · have h1 : beatOf (linearScanFrom beatOf beat n 0) < beat :=
      hf1 _ hgt
    have h2 : beat ≤ beatOf (linearScanFrom beatOf beat n 0) :=
      hl4 (lt_of_lt_of_le hgt hfh)
    exact absurd h1 (not_lt.mpr h2)

theorem eventBeat_mono_of_sorted (seq : List MidiEvt)
    (hsorted : seq.Pairwise (fun a b => a.tick ≤ b.tick)) :
    ∀ i j, i ≤ j → j < seq.length →
      MainComponent.eventBeatAt seq i ≤ MainComponent.eventBeatAt seq j := by
  intro i j hij hj
  rcases Nat.eq_or_lt_of_le hij with rfl | hlt
  · exact le_rfl
  · have hi : i < seq.length := lt_trans hlt hj
    have h := (List.pairwise_iff_getElem.mp hsorted) i j hi hj hlt
    unfold MainComponent.eventBeatAt MainComponent.convertTicksToBeats
    rw [List.getD_eq_getElem seq default hi, List.getD_eq_getElem seq default hj]
    exact (div_le_div_iff_of_pos_right (by norm_num)).mpr h

/-- C5: for a sequence of events sorted ascending by tick and any query
beat, `MainComponent::findEventIndexForBeat` (the binary search) returns
the same index as the linear scan for the first event whose beat is at or
after the query beat; the result always lies in `[0, number of events]`. -/
theorem findEventIndexForBeat_eq_linearScan (seq : List MidiEvt) (beat : ℚ)
    (hsorted : seq.Pairwise (fun a b => a.tick ≤ b.tick)) :
    MainComponent.findEventIndexForBeat seq beat =
        MainComponent.linearScanIndexForBeat seq beat ∧
      MainComponent.findEventIndexForBeat seq beat ≤ seq.length := by
  have hmono := eventBeat_mono_of_sorted seq hsorted
  unfold MainComponent.findEventIndexForBeat MainComponent.linearScanIndexForBeat
  exact ⟨findEventIndexAux_eq_linearScan _ beat seq.length hmono,
    (findEventIndexAux_bounds _ beat 0 seq.length (Nat.zero_le _)).2⟩

/-- Witness for C5: the sorted three-event sequence, query beat 1.2. -/
theorem findEventIndexForBeat_eq_linearScan_witness :
    MainComponent.findEventIndexForBeat MainComponent.sortedSeq (6/5) =
        MainComponent.linearScanIndexForBeat MainComponent.sortedSeq (6/5) ∧
      MainComponent.findEventIndexForBeat MainComponent.sortedSeq (6/5) ≤
        MainComponent.sortedSeq.length :=
  findEventIndexForBeat_eq_linearScan MainComponent.sortedSeq (6/5) (by decide)

theorem upperBoundIdx_eq_zero (t : ℚ) (f : MidiSchedulerAudioSource.TempoEvent)
    (r : List MidiSchedulerAudioSource.TempoEvent)
    (h : MidiSchedulerAudioSource.upperBoundIdx t (f :: r) = 0) : t < f.timestamp := by
  by_contra hc
  simp [MidiSchedulerAudioSource.upperBoundIdx, hc] at h

theorem filter_le_eq_nil_of_head_gt (t : ℚ)
    (f : MidiSchedulerAudioSource.TempoEvent)
    (r : List MidiSchedulerAudioSource.TempoEvent)
    (hsorted : (f :: r).Pairwise (fun a b => a.timestamp ≤ b.timestamp))
    (hgt : t < f.timestamp) :
    ((f :: r).filter fun e => e.timestamp ≤ t) = [] := by
  rw [List.filter_eq_nil_iff]
  intro a ha
  rw [List.pairwise_cons] at hsorted
  rcases List.mem_cons.mp ha with rfl | hmem
  · simp only [decide_eq_true_eq]
    exact not_le.mpr hgt
  · simp only [decide_eq_true_eq]
    exact not_le.mpr (lt_of_lt_of_le hgt (hsorted.1 a hmem))

/-- C4: on a tempo table sorted ascending by tick,
`MidiSchedulerAudioSource::getCurrentTempo` returns the BPM value of the
last tempo event whose tick is at or before the query tick, and the default
120 BPM when the query precedes the first entry. -/
theorem getCurrentTempo_eq_tempoAtTickSpec
    (tempoEvents : List MidiSchedulerAudioSource.TempoEvent) (t : ℚ)
    (hsorted : tempoEvents.Pairwise (fun a b => a.timestamp ≤ b.timestamp)) :
    MidiSchedulerAudioSource.getCurrentTempo tempoEvents t =
      MidiSchedulerAudioSource.tempoAtTickSpec tempoEvents t := by
  induction tempoEvents with
  | nil => rfl
  | cons e rest ih =>
    have hsorted' := hsorted
    rw [List.pairwise_cons] at hsorted'
    obtain ⟨hall, hrest⟩ := hsorted'
    by_cases hte : t < e.timestamp
    · have h0 : MidiSchedulerAudioSource.upperBoundIdx t (e :: rest) = 0 := by
        simp [MidiSchedulerAudioSource.upperBoundIdx, hte]
      have hfe := filter_le_eq_nil_of_head_gt t e rest hsorted hte
      simp [MidiSchedulerAudioSource.getCurrentTempo, h0,
        MidiSchedulerAudioSource.tempoAtTickSpec, hfe]
    · have hle : e.timestamp ≤ t := not_lt.mp hte
      have hub : MidiSchedulerAudioSource.upperBoundIdx t (e :: rest) =
          MidiSchedulerAudioSource.upperBoundIdx t rest + 1 := by
        simp [MidiSchedulerAudioSource.upperBoundIdx, hte]
      have hfcons : ((e :: rest).filter fun x => x.timestamp ≤ t) =
          e :: (rest.filter fun x => x.timestamp ≤ t) := by
        rw [List.filter_cons_of_pos]
        simpa using hle
      rcases h0 : MidiSchedulerAudioSource.upperBoundIdx t rest with _ | k
      · have hfr : (rest.filter fun x => x.timestamp ≤ t) = [] := by
          cases rest with
          | nil => rfl
          | cons f r2 =>
            exact filter_le_eq_nil_of_head_gt t f r2 hrest (upperBoundIdx_eq_zero t f r2 h0)
        simp [MidiSchedulerAudioSource.getCurrentTempo, hub, h0,
          MidiSchedulerAudioSource.tempoAtTickSpec, hfcons, hfr]
      · have hlhs : MidiSchedulerAudioSource.getCurrentTempo (e :: rest) t =
            MidiSchedulerAudioSource.getCurrentTempo rest t := by
          simp [MidiSchedulerAudioSource.getCurrentTempo, hub, h0]
        have hfr : (rest.filter fun x => x.timestamp ≤ t) ≠ [] := by
          cases rest with
          | nil => simp [MidiSchedulerAudioSource.upperBoundIdx] at h0
          | cons f r2 =>
            have hf : f.timestamp ≤ t := by
              by_contra hc
              simp [MidiSchedulerAudioSource.upperBoundIdx, not_le.mp hc] at h0
            intro hnil
            rw [List.filter_eq_nil_iff] at hnil
            exact absurd hf (by simpa using hnil f (List.mem_cons_self f r2))
        have hrhs : MidiSchedulerAudioSource.tempoAtTickSpec (e :: rest) t =
            MidiSchedulerAudioSource.tempoAtTickSpec rest t := by
          rcases hfr2 : (rest.filter fun x => x.timestamp ≤ t) with _ | ⟨c, l2⟩
          · exact absurd hfr2 hfr
          · unfold MidiSchedulerAudioSource.tempoAtTickSpec
            rw [hfcons, hfr2, List.getLast?_cons_cons]
        rw [hlhs, hrhs]
        exact ih hrest

/-- Witness for C4: the two-entry sorted tempo table queried at tick 1000
(after the second entry, whose value 400000 corresponds to 150 BPM). -/
theorem getCurrentTempo_eq_tempoAtTickSpec_witness :
    MidiSchedulerAudioSource.getCurrentTempo MidiSchedulerAudioSource.tempoTable 1000 =
      MidiSchedulerAudioSource.tempoAtTickSpec MidiSchedulerAudioSource.tempoTable 1000 :=
  getCurrentTempo_eq_tempoAtTickSpec MidiSchedulerAudioSource.tempoTable 1000 (by decide)

/-- C9: for every scheduler state and every BPM argument, `setTempo` leaves
the tempo table containing exactly one entry, at tick 0, holding
`60000000 / bpm` microseconds per quarter note (and stores the BPM); all
previously stored file-embedded tempo events are discarded. -/
theorem setTempo_single_entry (s : MidiSchedulerAudioSource.SchedState) (bpm : ℚ) :
    (MidiSchedulerAudioSource.setTempo s bpm).tempoEvents =
        [⟨0, 60000000 / bpm⟩] ∧
      (MidiSchedulerAudioSource.setTempo s bpm).tempo = bpm :=
  ⟨rfl, rfl⟩

/-- C10: every `setLoopRegion(startBeat, endBeat, loops)` call sets the
playback position to `startBeat` and resets `currentLoopIteration` to 0,
regardless of whether the arguments form a valid loop region; looping is
enabled exactly when `loops > 0` and `endBeat > startBeat`. -/
theorem setLoopRegion_seeks_unconditionally (s : MidiSchedulerAudioSource.SchedState)
    (startBeat endBeat : ℚ) (loops : ℤ) :
    (MidiSchedulerAudioSource.setLoopRegion s startBeat endBeat loops).playbackPosition
        = startBeat ∧
      (MidiSchedulerAudioSource.setLoopRegion s startBeat endBeat loops).currentLoopIteration
        = 0 ∧
      ((MidiSchedulerAudioSource.setLoopRegion s startBeat endBeat loops).isLooping = true ↔
        (0 < loops ∧ startBeat < endBeat)) := by
  refine ⟨rfl, rfl, ?_⟩
  simp [MidiSchedulerAudioSource.setLoopRegion]

/-- C2 (divergence): at a concrete state just before the sequence end with
no loop, the scheduler audio block posts the asynchronous playback-stopped
notification but leaves `isPlaying` true, so the immediately following
block enters the end-of-file branch again and posts the notification a
second time; playback is never stopped from the audio side. -/
theorem schedulerEndOfFile_divergence :
    (MidiSchedulerAudioSource.getNextAudioBlock
        MidiSchedulerAudioSource.schedEndState 0 10).notifiedStopped = true ∧
      (MidiSchedulerAudioSource.getNextAudioBlock
        MidiSchedulerAudioSource.schedEndState 0 10).state.isPlaying = true ∧
      (MidiSchedulerAudioSource.getNextAudioBlock
        (MidiSchedulerAudioSource.getNextAudioBlock
          MidiSchedulerAudioSource.schedEndState 0 10).state 0 10).notifiedStopped = true := by
  refine ⟨?_, ?_, ?_⟩ <;>
    norm_num [MidiSchedulerAudioSource.getNextAudioBlock,
      MidiSchedulerAudioSource.schedEndState, MidiSchedulerAudioSource.getCurrentTempo,
      MidiSchedulerAudioSource.upperBoundIdx, MidiSchedulerAudioSource.ticksToBeats]

/-- C7: a program-change message routed on the percussion channel (0-based
index 9, MIDI channel 10) leaves every channel program unchanged; the same
message on any other channel updates that channel program to the message
program number.  In both cases the only entry forwarded to the channel
buffers is the program-change message itself, never an audible note
event. -/
theorem programChange_routing (st : SynthAudioSource.SynthState)
    (ch prog samplePos : ℤ) (hch : 1 ≤ ch ∧ ch ≤ 16) :
    ((SynthAudioSource.routeMessage st (MidiMsgKind.programChange ch prog) samplePos).1.subsounds
        = if ch = 10 then st.subsounds else st.subsounds.set (ch - 1).toNat prog) ∧
      ((SynthAudioSource.routeMessage st (MidiMsgKind.programChange ch prog) samplePos).2
        = some ((ch - 1).toNat, MidiMsgKind.programChange ch prog, samplePos)) ∧
      (∀ idx c n v pos,
        (SynthAudioSource.routeMessage st (MidiMsgKind.programChange ch prog) samplePos).2
          ≠ some (idx, MidiMsgKind.noteOn c n v, pos)) := by
  have hguard : 0 ≤ ch - 1 ∧ ch - 1 < 16 := by omega
  by_cases h10 : ch = 10
  · subst h10
    have h9 : ((10 : ℤ) - 1).toNat = 9 := by omega
    simp [SynthAudioSource.routeMessage, SynthAudioSource.getChannel, hguard, h9]
  · have hne : (ch - 1).toNat ≠ 9 := by omega
    have h10' : ch.toNat ≠ 10 := by omega
    simp [SynthAudioSource.routeMessage, SynthAudioSource.getChannel,
      SynthAudioSource.setupChannel, hguard, hne, h10, h10']

/-- C8: a note-on or note-off message on a non-percussion channel is
forwarded with its note number shifted by the global transposition and
clamped to `[0, 127]`; on the percussion channel (0-based index 9, MIDI
channel 10) the note number is forwarded unmodified. -/
theorem note_transposition_routing (st : SynthAudioSource.SynthState)
    (ch note vel samplePos : ℤ) (hch : 1 ≤ ch ∧ ch ≤ 16) :
    (ch ≠ 10 →
      (SynthAudioSource.routeMessage st (MidiMsgKind.noteOn ch note vel) samplePos).2
          = some ((ch - 1).toNat,
              MidiMsgKind.noteOn ch (jlimit 0 127 (note + st.transpositionAmount)) vel,
              samplePos) ∧
        (SynthAudioSource.routeMessage st (MidiMsgKind.noteOff ch note vel) samplePos).2
          = some ((ch - 1).toNat,
              MidiMsgKind.noteOff ch (jlimit 0 127 (note + st.transpositionAmount)) vel,
              samplePos)) ∧
      (ch = 10 →
        (SynthAudioSource.routeMessage st (MidiMsgKind.noteOn ch note vel) samplePos).2
            = some (9, MidiMsgKind.noteOn ch note vel, samplePos) ∧
          (SynthAudioSource.routeMessage st (MidiMsgKind.noteOff ch note vel) samplePos).2
            = some (9, MidiMsgKind.noteOff ch note vel, samplePos)) := by
  have hguard : 0 ≤ ch - 1 ∧ ch - 1 < 16 := by omega
  constructor
  · intro h10
    have hne : (ch - 1).toNat ≠ 9 := by omega
    have h10' : ch.toNat ≠ 10 := by omega
    constructor <;>
      simp [SynthAudioSource.routeMessage, SynthAudioSource.getChannel, hguard, hne, h10']
  · intro h10
    subst h10
    have h9 : ((10 : ℤ) - 1).toNat = 9 := by omega
    constructor <;>
      simp [SynthAudioSource.routeMessage, SynthAudioSource.getChannel, hguard, h9]

/-- Witness for C7: at the constructor router state, a program change to
program 5 on MIDI channel 10 leaves all channel programs unchanged, while
the same message on MIDI channel 1 sets the channel-0 program to 5. -/
theorem programChange_routing_witness :
    ((SynthAudioSource.routeMessage SynthAudioSource.synthExampleState
        (MidiMsgKind.programChange 10 5) 0).1.subsounds
      = SynthAudioSource.synthExampleState.subsounds) ∧
      ((SynthAudioSource.routeMessage SynthAudioSource.synthExampleState
        (MidiMsgKind.programChange 1 5) 0).1.subsounds
      = SynthAudioSource.synthExampleState.subsounds.set 0 5) := by
  constructor
  · have h := (programChange_routing SynthAudioSource.synthExampleState 10 5 0
      (by omega)).1
    simpa using h
  · have h := (programChange_routing SynthAudioSource.synthExampleState 1 5 0
      (by omega)).1
    simpa using h

/-- Witness for C8: with transposition +12, a note-on for note 64 on MIDI
channel 1 is forwarded as note 76, while the same note-on on MIDI channel 10
(percussion) keeps note 64. -/
theorem note_transposition_routing_witness :
    ((SynthAudioSource.routeMessage SynthAudioSource.synthExampleState
        (MidiMsgKind.noteOn 1 64 100) 7).2
      = some (0, MidiMsgKind.noteOn 1 76 100, 7)) ∧
      ((SynthAudioSource.routeMessage SynthAudioSource.synthExampleState
        (MidiMsgKind.noteOn 10 64 100) 7).2
      = some (9, MidiMsgKind.noteOn 10 64 100, 7)) := by
  constructor
  · have h := ((note_transposition_routing SynthAudioSource.synthExampleState 1 64 100 7
      (by omega)).1 (by omega)).1
    norm_num [SynthAudioSource.synthExampleState, jlimit] at h
    simpa using h
  · exact ((note_transposition_routing SynthAudioSource.synthExampleState 10 64 100 7
      (by omega)).2 rfl).1

theorem mem_reTriggerSustainedNotesAt (seq : List MidiEvt) (boundaryBeat : ℚ)
    (ch note : ℤ) (v : ℚ) :
    (ch, note, v) ∈ MainComponent.reTriggerSustainedNotesAt seq boundaryBeat ↔
      ∃ evt ∈ seq, ∃ velocity offTick,
        evt.msg = MidiMsgKind.noteOn ch note velocity ∧
        evt.noteOffTick = some offTick ∧
        v = (velocity : ℚ) / 127 ∧
        MainComponent.convertTicksToBeats evt.tick ≤
          boundaryBeat + MainComponent.epsilon ∧
        boundaryBeat < MainComponent.convertTicksToBeats offTick := by
  unfold MainComponent.reTriggerSustainedNotesAt
  rw [List.mem_filterMap]
  constructor
  · rintro ⟨evt, hmem, heq⟩
    rcases hm : evt.msg with ⟨c, n, vel⟩ | ⟨c, n, vel⟩ | ⟨c, p⟩ | c
    case noteOn =>
      rcases ho : evt.noteOffTick with _ | offT
      · rw [hm, ho] at heq
        simp at heq
      · rw [hm, ho] at heq
        dsimp only at heq
        by_cases hcond : MainComponent.convertTicksToBeats evt.tick ≤
            boundaryBeat + MainComponent.epsilon ∧
            boundaryBeat < MainComponent.convertTicksToBeats offT
        · rw [if_pos hcond] at heq
          simp only [Option.some.injEq, Prod.mk.injEq] at heq
          obtain ⟨rfl, rfl, hv⟩ := heq
          exact ⟨evt, hmem, vel, offT, hm, ho, hv.symm, hcond.1, hcond.2⟩
        · rw [if_neg hcond] at heq
          exact absurd heq (by simp)
    case noteOff =>
      rw [hm] at heq
      rcases ho : evt.noteOffTick with _ | offT <;> rw [ho] at heq <;> simp at heq
    case programChange =>
      rw [hm] at heq
      rcases ho : evt.noteOffTick with _ | offT <;> rw [ho] at heq <;> simp at heq
    case otherMsg =>
      rw [hm] at heq
      rcases ho : evt.noteOffTick with _ | offT <;> rw [ho] at heq <;> simp at heq
  · rintro ⟨evt, hmem, velocity, offT, hmsg, hoff, hv, h1, h2⟩
    refine ⟨evt, hmem, ?_⟩
    rw [hmsg, hoff]
    show (if MainComponent.convertTicksToBeats evt.tick ≤
        boundaryBeat + MainComponent.epsilon ∧
        boundaryBeat < MainComponent.convertTicksToBeats offT then
      some (ch, note, (velocity : ℚ) / 127) else none) = some (ch, note, v)
    rw [if_pos ⟨h1, h2⟩, hv]

/-- C1: when looping is active, the block advance crosses the loop end
(`position + beatsPerBlock >= end`) and `currentIteration < count - 1`, the
audio block is split into a segment up to the loop end and a segment
starting at the loop start, the iteration counter is incremented, and,
before the post-wrap segment is rendered, a `noteOn` is issued for exactly
those notes whose note-on beat lies at or before the loop start (within the
0.05-beat tolerance) and whose matched note-off beat lies strictly after
the loop start. -/
theorem loopWrap_splits_and_retriggers (s : MainComponent.MCState)
    (sampleRate : ℚ) (bufferStartSample numSamples : ℤ)
    (hp : s.isPlaying = true) (hl : s.isLooping = true)
    (hpos : s.playbackPosition ≤ s.loopEndBeat)
    (hcross : s.loopEndBeat ≤ s.playbackPosition +
      MainComponent.blockBeats s.tempo sampleRate numSamples)
    (hiter : s.currentLoopIteration < s.loopCount - 1) :
    (MainComponent.getNextAudioBlock s sampleRate bufferStartSample numSamples).2 =
        [MainComponent.Action.segment 0 (MainComponent.samplesToLoopEnd s sampleRate numSamples)
            s.playbackPosition s.loopEndBeat
            (MainComponent.processSegment s.midiSequence s.tempo sampleRate bufferStartSample 0
              (MainComponent.samplesToLoopEnd s sampleRate numSamples)
              s.playbackPosition s.loopEndBeat),
          MainComponent.Action.allNotesOff,
          MainComponent.Action.retrigger s.loopStartBeat
            (MainComponent.reTriggerSustainedNotesAt s.midiSequence s.loopStartBeat),
          MainComponent.Action.segment (MainComponent.samplesToLoopEnd s sampleRate numSamples)
            (numSamples - MainComponent.samplesToLoopEnd s sampleRate numSamples)
            s.loopStartBeat (MainComponent.postWrapEndBeat s sampleRate numSamples)
            (MainComponent.processSegment s.midiSequence s.tempo sampleRate bufferStartSample
              (MainComponent.samplesToLoopEnd s sampleRate numSamples)
              (numSamples - MainComponent.samplesToLoopEnd s sampleRate numSamples)
              s.loopStartBeat (MainComponent.postWrapEndBeat s sampleRate numSamples))] ∧
      (MainComponent.getNextAudioBlock s sampleRate bufferStartSample
          numSamples).1.currentLoopIteration = s.currentLoopIteration + 1 ∧
      (MainComponent.getNextAudioBlock s sampleRate bufferStartSample
          numSamples).1.playbackPosition =
        MainComponent.postWrapEndBeat s sampleRate numSamples ∧
      (∀ ch note : ℤ, ∀ v : ℚ,
        (ch, note, v) ∈
            MainComponent.reTriggerSustainedNotesAt s.midiSequence s.loopStartBeat ↔
          ∃ evt ∈ s.midiSequence, ∃ velocity offTick,
            evt.msg = MidiMsgKind.noteOn ch note velocity ∧
            evt.noteOffTick = some offTick ∧
            v = (velocity : ℚ) / 127 ∧
            MainComponent.convertTicksToBeats evt.tick ≤
              s.loopStartBeat + MainComponent.epsilon ∧
            s.loopStartBeat < MainComponent.convertTicksToBeats offTick) := by
  have hpos' : ¬ (s.loopEndBeat < s.playbackPosition) := not_lt.mpr hpos
  refine ⟨?_, ?_, ?_,
    fun ch note v => mem_reTriggerSustainedNotesAt s.midiSequence s.loopStartBeat ch note v⟩ <;>
  simp [MainComponent.getNextAudioBlock, hp, hl, hpos', hcross, hiter]

/-- Witness for C1: the loop scenario state (loop `[2, 6)` with 3
iterations, position 5.5 beats, a 10-sample block at sample rate 10, which
covers 2 beats at tempo 120). -/
theorem loopWrap_splits_and_retriggers_witness :
    (MainComponent.getNextAudioBlock MainComponent.loopWrapState 10 0
        10).1.currentLoopIteration = MainComponent.loopWrapState.currentLoopIteration + 1 ∧
      (MainComponent.getNextAudioBlock MainComponent.loopWrapState 10 0
          10).1.playbackPosition =
        MainComponent.postWrapEndBeat MainComponent.loopWrapState 10 10 :=
  ⟨(loopWrap_splits_and_retriggers MainComponent.loopWrapState 10 0 10 rfl rfl
      (by norm_num [MainComponent.loopWrapState])
      (by norm_num [MainComponent.loopWrapState, MainComponent.blockBeats,
        MainComponent.secondsPerBeat])
      (by norm_num [MainComponent.loopWrapState])).2.1,
    (loopWrap_splits_and_retriggers MainComponent.loopWrapState 10 0 10 rfl rfl
      (by norm_num [MainComponent.loopWrapState])
      (by norm_num [MainComponent.loopWrapState, MainComponent.blockBeats,
        MainComponent.secondsPerBeat])
      (by norm_num [MainComponent.loopWrapState])).2.2.1⟩

/-- C3: on the final loop iteration (`currentIteration = count - 1`), a
block that crosses the loop end renders a segment up to the loop end and
then continues from the loop end onward without wrapping, re-triggering
sustained notes with the same scan anchored at the loop end; the controller
leaves looping (`isLooping = false`) with `currentLoopIteration` reset to 0,
and the next explicit play command re-arms the same region. -/
theorem loopExit_continues_and_disarms (s : MainComponent.MCState)
    (sampleRate : ℚ) (bufferStartSample numSamples : ℤ)
    (hp : s.isPlaying = true) (hl : s.isLooping = true)
    (hpos : s.playbackPosition ≤ s.loopEndBeat)
    (hcross : s.loopEndBeat ≤ s.playbackPosition +
      MainComponent.blockBeats s.tempo sampleRate numSamples)
    (hiter : s.currentLoopIteration = s.loopCount - 1)
    (hseq : 0 < s.midiSequence.length)
    (hvalid : 0 < s.loopCount ∧ s.loopStartBeat < s.loopEndBeat) :
    (MainComponent.getNextAudioBlock s sampleRate bufferStartSample numSamples).2 =
        [MainComponent.Action.segment 0 (MainComponent.samplesToLoopEnd s sampleRate numSamples)
            s.playbackPosition s.loopEndBeat
            (MainComponent.processSegment s.midiSequence s.tempo sampleRate bufferStartSample 0
              (MainComponent.samplesToLoopEnd s sampleRate numSamples)
              s.playbackPosition s.loopEndBeat),
          MainComponent.Action.retrigger s.loopEndBeat
            (MainComponent.reTriggerSustainedNotesAt s.midiSequence s.loopEndBeat),
          MainComponent.Action.segment (MainComponent.samplesToLoopEnd s sampleRate numSamples)
            (numSamples - MainComponent.samplesToLoopEnd s sampleRate numSamples)
            s.loopEndBeat (MainComponent.loopExitEndBeat s sampleRate numSamples)
            (MainComponent.processSegment s.midiSequence s.tempo sampleRate bufferStartSample
              (MainComponent.samplesToLoopEnd s sampleRate numSamples)
              (numSamples - MainComponent.samplesToLoopEnd s sampleRate numSamples)
              s.loopEndBeat (MainComponent.loopExitEndBeat s sampleRate numSamples))] ∧
      (MainComponent.getNextAudioBlock s sampleRate bufferStartSample
          numSamples).1.isLooping = false ∧
      (MainComponent.getNextAudioBlock s sampleRate bufferStartSample
          numSamples).1.currentLoopIteration = 0 ∧
      (MainComponent.playMidiFile
          (MainComponent.getNextAudioBlock s sampleRate bufferStartSample
            numSamples).1).1.isLooping = true ∧
      (MainComponent.playMidiFile
          (MainComponent.getNextAudioBlock s sampleRate bufferStartSample
            numSamples).1).1.currentLoopIteration = 0 ∧
      (∀ ch note : ℤ, ∀ v : ℚ,
        (ch, note, v) ∈
            MainComponent.reTriggerSustainedNotesAt s.midiSequence s.loopEndBeat ↔
          ∃ evt ∈ s.midiSequence, ∃ velocity offTick,
            evt.msg = MidiMsgKind.noteOn ch note velocity ∧
            evt.noteOffTick = some offTick ∧
            v = (velocity : ℚ) / 127 ∧
            MainComponent.convertTicksToBeats evt.tick ≤
              s.loopEndBeat + MainComponent.epsilon ∧
            s.loopEndBeat < MainComponent.convertTicksToBeats offTick) := by
  have hpos' : ¬ (s.loopEndBeat < s.playbackPosition) := not_lt.mpr hpos
  have hiter' : ¬ (s.currentLoopIteration < s.loopCount - 1) := by omega
  refine ⟨?_, ?_, ?_, ?_, ?_,
    fun ch note v => mem_reTriggerSustainedNotesAt s.midiSequence s.loopEndBeat ch note v⟩ <;>
  simp [MainComponent.getNextAudioBlock, MainComponent.playMidiFile, hp, hl, hpos',
    hcross, hiter', hseq, hvalid.1, hvalid.2]

/-- Witness for C3: the loop scenario state on its final iteration. -/
theorem loopExit_continues_and_disarms_witness :
    (MainComponent.getNextAudioBlock MainComponent.loopExitState 10 0 10).1.isLooping = false ∧
      (MainComponent.getNextAudioBlock MainComponent.loopExitState 10 0
          10).1.currentLoopIteration = 0 ∧
      (MainComponent.playMidiFile
          (MainComponent.getNextAudioBlock MainComponent.loopExitState 10 0
            10).1).1.isLooping = true :=
  ⟨(loopExit_continues_and_disarms MainComponent.loopExitState 10 0 10 rfl rfl
      (by norm_num [MainComponent.loopExitState, MainComponent.loopWrapState])
      (by norm_num [MainComponent.loopExitState, MainComponent.loopWrapState,
        MainComponent.blockBeats, MainComponent.secondsPerBeat])
      (by norm_num [MainComponent.loopExitState, MainComponent.loopWrapState])
      (by norm_num [MainComponent.loopExitState, MainComponent.loopWrapState])
      (by norm_num [MainComponent.loopExitState, MainComponent.loopWrapState])).2.1,
    (loopExit_continues_and_disarms MainComponent.loopExitState 10 0 10 rfl rfl
      (by norm_num [MainComponent.loopExitState, MainComponent.loopWrapState])
      (by norm_num [MainComponent.loopExitState, MainComponent.loopWrapState,
        MainComponent.blockBeats, MainComponent.secondsPerBeat])
      (by norm_num [MainComponent.loopExitState, MainComponent.loopWrapState])
      (by norm_num [MainComponent.loopExitState, MainComponent.loopWrapState])
      (by norm_num [MainComponent.loopExitState, MainComponent.loopWrapState])).2.2.1,
    (loopExit_continues_and_disarms MainComponent.loopExitState 10 0 10 rfl rfl
      (by norm_num [MainComponent.loopExitState, MainComponent.loopWrapState])
      (by norm_num [MainComponent.loopExitState, MainComponent.loopWrapState,
        MainComponent.blockBeats, MainComponent.secondsPerBeat])
      (by norm_num [MainComponent.loopExitState, MainComponent.loopWrapState])
      (by norm_num [MainComponent.loopExitState, MainComponent.loopWrapState])
      (by norm_num [MainComponent.loopExitState, MainComponent.loopWrapState])).2.2.2.1⟩

theorem processSegmentLoop_sound (seq : List MidiEvt) (tempo sampleRate : ℚ)
    (b ss ns : ℤ) (startB endB : ℚ) (j : ℕ) (m : MidiMsgKind) (o : ℤ)
    (hmem : (m, o) ∈ MainComponent.processSegmentLoop seq tempo sampleRate b ss ns
      startB endB j) :
    ∃ i, j ≤ i ∧ i < seq.length ∧
      startB ≤ MainComponent.eventBeatAt seq i ∧
      MainComponent.eventBeatAt seq i < endB ∧
      m = (seq.getD i default).msg ∧
      o = b + ss + MainComponent.sampleOffsetAt seq tempo sampleRate startB i ∧
      0 ≤ MainComponent.sampleOffsetAt seq tempo sampleRate startB i ∧
      MainComponent.sampleOffsetAt seq tempo sampleRate startB i < ns := by
  rw [MainComponent.processSegmentLoop] at hmem
  by_cases hj : j < seq.length
  · rw [if_pos hj] at hmem
    by_cases hend : endB ≤ MainComponent.eventBeatAt seq j
    · rw [if_pos hend] at hmem
      simp at hmem
    · rw [if_neg hend] at hmem
      rcases List.mem_append.mp hmem with hhead | htail
      · by_cases hstart : startB ≤ MainComponent.eventBeatAt seq j
        · rw [if_pos hstart] at hhead
          by_cases hoff : 0 ≤ MainComponent.sampleOffsetAt seq tempo sampleRate startB j ∧
              MainComponent.sampleOffsetAt seq tempo sampleRate startB j < ns
          · rw [if_pos hoff] at hhead
            simp only [List.mem_singleton, Prod.mk.injEq] at hhead
            exact ⟨j, le_rfl, hj, hstart, not_le.mp hend, hhead.1, hhead.2, hoff.1, hoff.2⟩
          · rw [if_neg hoff] at hhead
            simp at hhead
        · rw [if_neg hstart] at hhead
          simp at hhead
      · obtain ⟨i, hi1, hrest⟩ := processSegmentLoop_sound seq tempo sampleRate b ss ns
          startB endB (j + 1) m o htail
        exact ⟨i, by omega, hrest⟩
  · rw [if_neg hj] at hmem
    simp at hmem
termination_by seq.length - j
decreasing_by omega

theorem processSegmentLoop_complete (seq : List MidiEvt) (tempo sampleRate : ℚ)
    (b ss ns : ℤ) (startB endB : ℚ)
    (hmono : ∀ i j, i ≤ j → j < seq.length →
      MainComponent.eventBeatAt seq i ≤ MainComponent.eventBeatAt seq j)
    (j i : ℕ) (hji : j ≤ i) (hi : i < seq.length)
    (hstart : startB ≤ MainComponent.eventBeatAt seq i)
    (hend : MainComponent.eventBeatAt seq i < endB)
    (hoff0 : 0 ≤ MainComponent.sampleOffsetAt seq tempo sampleRate startB i)
    (hoffn : MainComponent.sampleOffsetAt seq tempo sampleRate startB i < ns) :
    ((seq.getD i default).msg,
        b + ss + MainComponent.sampleOffsetAt seq tempo sampleRate startB i) ∈
      MainComponent.processSegmentLoop seq tempo sampleRate b ss ns startB endB j := by
  rw [MainComponent.processSegmentLoop]
  have hjlen : j < seq.length := lt_of_le_of_lt hji hi
  rw [if_pos hjlen]
  have hjend : ¬ (endB ≤ MainComponent.eventBeatAt seq j) :=
    not_le.mpr (lt_of_le_of_lt (hmono j i hji hi) hend)
  rw [if_neg hjend]
  rcases Nat.eq_or_lt_of_le hji with rfl | hlt
  · apply List.mem_append_left
    rw [if_pos hstart, if_pos ⟨hoff0, hoffn⟩]
    simp
  · apply List.mem_append_right
    exact processSegmentLoop_complete seq tempo sampleRate b ss ns startB endB hmono
      (j + 1) i (by omega) hi hstart hend hoff0 hoffn
termination_by i - j
decreasing_by omega

/-- C6 (amended): for a sorted sequence, an entry is in the per-block buffer
produced by `processSegment` exactly when it comes from an event inside
`[beatStart, beatEnd)` whose sample offset — the truncation toward zero of
`(eventBeat - beatStart) * secondsPerBeat * sampleRate` — already lies in
`[0, numSamples)`; out-of-range events are dropped, not clamped. -/
theorem processSegment_buffer_characterization (seq : List MidiEvt)
    (tempo sampleRate : ℚ)
    (bufferStartSample segmentStartSample segmentNumSamples : ℤ)
    (segmentStartBeat segmentEndBeat : ℚ)
    (hsorted : seq.Pairwise (fun a b => a.tick ≤ b.tick))
    (m : MidiMsgKind) (o : ℤ) :
    (m, o) ∈ MainComponent.processSegment seq tempo sampleRate bufferStartSample
        segmentStartSample segmentNumSamples segmentStartBeat segmentEndBeat ↔
      ∃ i, i < seq.length ∧
        segmentStartBeat ≤ MainComponent.eventBeatAt seq i ∧
        MainComponent.eventBeatAt seq i < segmentEndBeat ∧
        m = (seq.getD i default).msg ∧
        o = bufferStartSample + segmentStartSample +
          truncToInt ((MainComponent.eventBeatAt seq i - segmentStartBeat) *
            MainComponent.secondsPerBeat tempo * sampleRate) ∧
        0 ≤ truncToInt ((MainComponent.eventBeatAt seq i - segmentStartBeat) *
          MainComponent.secondsPerBeat tempo * sampleRate) ∧
        truncToInt ((MainComponent.eventBeatAt seq i - segmentStartBeat) *
          MainComponent.secondsPerBeat tempo * sampleRate) < segmentNumSamples := by
  have hmono := eventBeat_mono_of_sorted seq hsorted
  have hfmla : ∀ i, MainComponent.sampleOffsetAt seq tempo sampleRate segmentStartBeat i =
      truncToInt ((MainComponent.eventBeatAt seq i - segmentStartBeat) *
        MainComponent.secondsPerBeat tempo * sampleRate) := by
    intro i
    unfold MainComponent.sampleOffsetAt MainComponent.convertBeatsToMilliseconds
      MainComponent.secondsPerBeat
    congr 1
    ring
  constructor
  · intro hmem
    obtain ⟨i, hji, hilen, hstart, hend, hm, ho, h0, hn⟩ :=
      processSegmentLoop_sound seq tempo sampleRate bufferStartSample segmentStartSample
        segmentNumSamples segmentStartBeat segmentEndBeat _ m o hmem
    refine ⟨i, hilen, hstart, hend, hm, ?_, ?_, ?_⟩
    · rw [ho, hfmla]
    · rw [← hfmla]; exact h0
    · rw [← hfmla]; exact hn
  · rintro ⟨i, hilen, hstart, hend, hm, ho, h0, hn⟩
    have hki : MainComponent.findEventIndexForBeat seq segmentStartBeat ≤ i := by
      by_contra hc
      push_neg at hc
      have hlt := (findEventIndexAux_inv (MainComponent.eventBeatAt seq) segmentStartBeat
        seq.length 0 seq.length le_rfl (Nat.zero_le _) hmono (by omega) (by omega)).1 i hc
      exact absurd hstart (not_le.mpr hlt)
    have hmem := processSegmentLoop_complete seq tempo sampleRate bufferStartSample
      segmentStartSample segmentNumSamples segmentStartBeat segmentEndBeat hmono
      _ i hki hilen hstart hend (by rw [hfmla]; exact h0) (by rw [hfmla]; exact hn)
    subst hm
    subst ho
    unfold MainComponent.processSegment
    rw [← hfmla i]
    exact hmem

/-- Witness for C6 (amended) at the concrete two-event segment input. -/
theorem processSegment_buffer_characterization_witness :
    (MidiMsgKind.noteOn 1 60 100, (1 : ℤ)) ∈
        MainComponent.processSegment MainComponent.offsetSeq 120 10 0 0 4 0 1 ↔
      ∃ i, i < MainComponent.offsetSeq.length ∧
        (0 : ℚ) ≤ MainComponent.eventBeatAt MainComponent.offsetSeq i ∧
        MainComponent.eventBeatAt MainComponent.offsetSeq i < 1 ∧
        MidiMsgKind.noteOn 1 60 100 = (MainComponent.offsetSeq.getD i default).msg ∧
        (1 : ℤ) = 0 + 0 +
          truncToInt ((MainComponent.eventBeatAt MainComponent.offsetSeq i - 0) *
            MainComponent.secondsPerBeat 120 * 10) ∧
        0 ≤ truncToInt ((MainComponent.eventBeatAt MainComponent.offsetSeq i - 0) *
          MainComponent.secondsPerBeat 120 * 10) ∧
        truncToInt ((MainComponent.eventBeatAt MainComponent.offsetSeq i - 0) *
          MainComponent.secondsPerBeat 120 * 10) < 4 :=
  processSegment_buffer_characterization MainComponent.offsetSeq 120 10 0 0 4 0 1
    (by decide) (MidiMsgKind.noteOn 1 60 100) 1

/-- C6 counterexample: at tempo 120 and sample rate 10, a segment `[0, 1)`
of 4 samples over events at beats 0.3 and 0.9.  The event at beat 0.3 is
inserted at the truncated offset 1 although the claimed rounded offset is
2, and the event at beat 0.9 (rounded offset 5, which clamping into
`[0, 4)` would place at 3) is dropped entirely. -/
theorem processSegment_offset_not_rounded :
    MainComponent.processSegment MainComponent.offsetSeq 120 10 0 0 4 0 1 =
        [(MidiMsgKind.noteOn 1 60 100, 1)] ∧
      MainComponent.claimedSampleOffset 120 10 0
        (MainComponent.eventBeatAt MainComponent.offsetSeq 0) = 2 ∧
      MainComponent.claimedSampleOffset 120 10 0
        (MainComponent.eventBeatAt MainComponent.offsetSeq 1) = 5 ∧
      (MidiMsgKind.noteOn 1 60 100, (2 : ℤ)) ∉
        MainComponent.processSegment MainComponent.offsetSeq 120 10 0 0 4 0 1 ∧
      ∀ o : ℤ, (MidiMsgKind.noteOn 1 62 100, o) ∉
        MainComponent.processSegment MainComponent.offsetSeq 120 10 0 0 4 0 1 := by
  have hlen : MainComponent.offsetSeq.length = 2 := by
    norm_num [MainComponent.offsetSeq]
  have hbeat0 : MainComponent.eventBeatAt MainComponent.offsetSeq 0 = 3/10 := by
    norm_num [MainComponent.eventBeatAt, MainComponent.offsetSeq,
      MainComponent.convertTicksToBeats]
  have hbeat1 : MainComponent.eventBeatAt MainComponent.offsetSeq 1 = 9/10 := by
    norm_num [MainComponent.eventBeatAt, MainComponent.offsetSeq,
      MainComponent.convertTicksToBeats]
  have hb0 : 0 < MainComponent.offsetSeq.length := by norm_num [MainComponent.offsetSeq]
  have hb1 : 1 < MainComponent.offsetSeq.length := by norm_num [MainComponent.offsetSeq]
  have hmsg0 : MainComponent.offsetSeq[0].msg = MidiMsgKind.noteOn 1 60 100 := by
    norm_num [MainComponent.offsetSeq]
  have hmsg1 : MainComponent.offsetSeq[1].msg = MidiMsgKind.noteOn 1 62 100 := by
    norm_num [MainComponent.offsetSeq]
  have hidx : MainComponent.findEventIndexForBeat MainComponent.offsetSeq 0 = 0 := by
    rw [MainComponent.findEventIndexForBeat, hlen]
    rw [findEventIndexAux]
    norm_num [hbeat1]
    rw [findEventIndexAux]
    norm_num [hbeat0]
    rw [findEventIndexAux]
    norm_num
  have hoff0 : MainComponent.sampleOffsetAt MainComponent.offsetSeq 120 10 0 0 = 1 := by
    norm_num [MainComponent.sampleOffsetAt, MainComponent.convertBeatsToMilliseconds,
      MainComponent.eventBeatAt, MainComponent.offsetSeq, MainComponent.convertTicksToBeats,
      truncToInt]
  have hoff1 : MainComponent.sampleOffsetAt MainComponent.offsetSeq 120 10 0 1 = 4 := by
    norm_num [MainComponent.sampleOffsetAt, MainComponent.convertBeatsToMilliseconds,
      MainComponent.eventBeatAt, MainComponent.offsetSeq, MainComponent.convertTicksToBeats,
      truncToInt]
  have hbuf : MainComponent.processSegment MainComponent.offsetSeq 120 10 0 0 4 0 1 =
      [(MidiMsgKind.noteOn 1 60 100, 1)] := by
    rw [MainComponent.processSegment, hidx, MainComponent.processSegmentLoop]
    norm_num [hoff0, hbeat0, hlen, hmsg0]
    rw [MainComponent.processSegmentLoop]
    norm_num [hoff1, hbeat1, hlen, hmsg1]
    rw [MainComponent.processSegmentLoop]
    norm_num [hlen]
  refine ⟨hbuf, ?_, ?_, ?_, ?_⟩
  · norm_num [MainComponent.claimedSampleOffset, roundHalfUp, MainComponent.eventBeatAt,
      MainComponent.offsetSeq, MainComponent.convertTicksToBeats,
      MainComponent.secondsPerBeat]
  · norm_num [MainComponent.claimedSampleOffset, roundHalfUp, MainComponent.eventBeatAt,
      MainComponent.offsetSeq, MainComponent.convertTicksToBeats,
      MainComponent.secondsPerBeat]
  · rw [hbuf]
    simp
  · intro o
    rw [hbuf]
    simp
